import Mathlib

/-!
Shallow embedding of `src/rateLimitMiddleware.ts` (the `RateLimitManager`
class and its middleware hooks) from the `revenuecat-api` repository.

Modelling choices:
* JS `Response` bodies are modelled by an optional parsed JSON value:
  `none` means `response.clone().json()` rejects (unparseable body).
* `Date.now()` and `delay(ms)` (a `setTimeout` wrapper) are modelled by an
  explicit clock in a `World` record; `delay ms` advances the clock by
  `max ms 0` milliseconds (setTimeout clamps negative delays to zero) and
  accumulates the same amount in a `waited` counter.
* The global `fetch` used by the retry loop is an oracle
  `fetches : Nat → FetchResult` indexed by the number of fetch calls made
  so far; each call either resolves with a `Response` or rejects with an
  error message. The options object passed to each retried fetch (the
  literal `{}` in the source) is logged in `sentOptions`.
* `endpointStates` (a JS `Map<string, EndpointState>`) is modelled as a
  function `String → Option EndpointState`.
* `sigLog` is specification-only ghost state: it records, per endpoint
  key, the `(retryAfterSeconds, signalTime)` pair of the most recent
  rate-limit signal, written exactly where the source writes
  `state.retryAfter` / `state.lastRetryTime` from a 429 response.
* Suspension points (each `await this.delay(...)`) are logged in a trace
  of `World`s: these are the states a concurrent task could observe while
  this operation is suspended.
-/

/-- Parsed JSON values, the result of `response.json()`. -/
inductive Json where
  | null
  | bool (b : Bool)
  | num (n : Int)
  | str (s : String)
  | arr (elems : List Json)
  | obj (fields : List (String × Json))

/-- Strict equality against the JS literal `false` (`v !== false` in the
source is the negation of this). -/
def Json.isBoolFalse : Json → Bool
  | Json.bool false => true
  | _ => false

/-- A JS `URL` object as produced by `new URL(request.url)`: we keep the
components `getEndpointKey` reads (`pathname`) plus the query string that
it deliberately ignores. -/
structure URLParts where
  pathname : String
  search : String
deriving DecidableEq

/-- A JS `Request`: HTTP method, parsed URL, and body (ignored by the
middleware, kept to state query/body independence). -/
structure Request where
  method : String
  url : URLParts
  body : String
deriving DecidableEq

/-- A JS `Response` as consumed by the middleware: numeric status, the
`Retry-After` header (`none` when absent, matching `headers.get` returning
`null`), and the parse result of its JSON body (`none` when `json()`
rejects). -/
structure Response where
  status : Nat
  retryAfterHeader : Option String
  body : Option Json

/-- Result of one transport-level `fetch` call: a response, or a rejected
promise carrying an error message. -/
inductive FetchResult where
  | ok (r : Response)
  | err (e : String)

/-- The `EndpointState` interface of the source. `queue` and `processing`
belong to the vestigial queue scaffold: they are initialised but never
touched on the `waitForThrottle` / `handleResponse` paths. -/
structure EndpointState where
  isThrottled : Bool
  retryAfter : Int
  queue : List Unit
  lastRetryTime : Int
  processing : Bool
deriving DecidableEq

/-- The default entry created lazily for an unseen endpoint key. -/
def defaultEndpointState : EndpointState :=
  { isThrottled := false, retryAfter := 0, queue := [], lastRetryTime := 0,
    processing := false }

/-- The world threaded through the hooks: the manager's endpoint-state map,
the simulated clock, the accumulated sleep time, the number of retried
fetches issued with the options object passed to each, and the ghost
signal log (see the file header). -/
structure World where
  states : String → Option EndpointState
  now : Int
  waited : Int
  fetchCount : Nat
  sentOptions : List (List (String × String))
  sigLog : String → Option (Int × Int)

/-- Worlds recorded at suspension points. -/
abbrev Trace := List World

/-- `private async delay(ms)`: with fake timers the clock advances by
exactly `ms` (clamped at 0, as `setTimeout` treats negative delays). -/
def delay (ms : Int) (w : World) : World :=
  { w with now := w.now + max ms 0, waited := w.waited + max ms 0 }

/-- Write an endpoint entry into the map. -/
def setState (k : String) (st : EndpointState) (w : World) : World :=
  { w with states := fun q => if q = k then some st else w.states q }

/-- Update an endpoint entry in place when present. -/
def updState (k : String) (f : EndpointState → EndpointState) (w : World) : World :=
  { w with states := fun q => if q = k then (w.states q).map f else w.states q }

/-- The lazy-initialisation block: create a default entry if absent. -/
def ensureState (k : String) (w : World) : World :=
  match w.states k with
  | some _ => w
  | none => setState k defaultEndpointState w

/-- `this.endpointStates.get(endpointKey)!` right after the init block. -/
def lookupState (k : String) (w : World) : EndpointState :=
  (w.states k).getD defaultEndpointState

/-- `state.isThrottled = b` on the entry for `k`. -/
def setThrottledFlag (k : String) (b : Bool) (w : World) : World :=
  updState k (fun st => { st with isThrottled := b }) w

/-- `state.retryAfter = ra; state.lastRetryTime = Date.now()` — recording a
rate-limit signal. The ghost `sigLog` is written here and only here. -/
def recordSignal (k : String) (ra : Int) (w : World) : World :=
  { updState k (fun st => { st with retryAfter := ra, lastRetryTime := w.now }) w with
    sigLog := fun q => if q = k then some (ra, w.now) else w.sigLog q }

/-- Bookkeeping for one `fetch(request, {})` call issued by the retry loop. -/
def recordFetch (w : World) : World :=
  { w with fetchCount := w.fetchCount + 1, sentOptions := w.sentOptions ++ [[]] }

/-- `private getEndpointKey(request)`: `` `${request.method}:${url.pathname}` ``
where `url = new URL(request.url)` — the query string and body never enter
the key. -/
def getEndpointKey (r : Request) : String :=
  r.method ++ ":" ++ r.url.pathname

/-- JS `parseInt(s, 10)`: skip leading whitespace, take an optional sign,
then the longest prefix of decimal digits; `NaN` (here `none`) when that
prefix is empty. -/
def jsParseInt10 (s : String) : Option Int :=
  let cs := s.data.dropWhile Char.isWhitespace
  let signed : Bool × List Char :=
    match cs with
    | '-' :: rest => (true, rest)
    | '+' :: rest => (false, rest)
    | _ => (false, cs)
  let ds := signed.2.takeWhile Char.isDigit
  if ds.isEmpty then none
  else
    let n : Nat := ds.foldl (fun acc c => acc * 10 + (c.toNat - 48)) 0
    some (if signed.1 then -(n : Int) else (n : Int))

/-- `private getRetryAfterTime(response)`: the `Retry-After` header parsed
with `parseInt(·, 10)`; the `if (retryAfter)` truthiness test skips the
parse for an absent header or an empty string; fall back to 1 second when
absent or `NaN`. -/
def getRetryAfterTime (retryAfterHeader : Option String) : Int :=
  match retryAfterHeader with
  | some s =>
      if s.isEmpty then 1
      else
        match jsParseInt10 s with
        | some n => n
        | none => 1
  | none => 1

/-- `private async isRetryable(response)`: parse the body; on an object
owning a `retryable` field return `retryable !== false`; in every other
case (parse failure, non-object, field absent) return `true`. -/
def isRetryable (body : Option Json) : Bool :=
  match body with
  | none => true
  | some (Json.obj fields) =>
      match fields.lookup "retryable" with
      | some v => if v.isBoolFalse then false else true
      | none => true
  | some _ => true

/-- `maxRetries = 3`. -/
def maxRetries : Nat := 3

/-- The `for (let attempt = 0; attempt < this.maxRetries; attempt++)` loop
of `handleResponse`, entered after the endpoint was marked throttled.
Arguments mirror the loop's mutable locals: remaining attempts,
`retryAfter`, `lastResponse`. Returns the settled result (`Except.error`
models the rethrown fetch error), the final world, and the worlds observed
at each `await this.delay(...)` suspension. -/
def retryLoop (key : String) (fetches : Nat → FetchResult) :
    Nat → Int → Response → World → Except String Response × World × Trace
  | 0, _retryAfter, lastResponse, w =>
      -- all retries exhausted: clear throttled, return the last 429
      (Except.ok lastResponse, setThrottledFlag key false w, [])
  | Nat.succ fuel, retryAfter, _lastResponse, w =>
      let w1 := delay (retryAfter * 1000) w
      let result := fetches w1.fetchCount
      let w2 := recordFetch w1
      match result with
      | FetchResult.err e =>
          -- fetch rejected: clear throttled, rethrow
          (Except.error e, setThrottledFlag key false w2, [w])
      | FetchResult.ok retryResponse =>
          if retryResponse.status ≠ 429 then
            (Except.ok retryResponse, setThrottledFlag key false w2, [w])
          else if isRetryable retryResponse.body = false then
            (Except.ok retryResponse, setThrottledFlag key false w2, [w])
          else
            let ra := getRetryAfterTime retryResponse.retryAfterHeader
            let w3 := recordSignal key ra w2
            let out := retryLoop key fetches fuel ra retryResponse w3
            (out.1, out.2.1, w :: out.2.2)

/-- `async handleResponse(request, response)` (the variant with the
retryability checks, `src/rateLimitMiddleware.ts:364-432`). -/
def handleResponse (req : Request) (resp : Response) (fetches : Nat → FetchResult)
    (w : World) : Except String Response × World × Trace :=
  if resp.status ≠ 429 then (Except.ok resp, w, [])
  else if isRetryable resp.body = false then (Except.ok resp, w, [])
  else
    let key := getEndpointKey req
    let w0 := ensureState key w
    let ra := getRetryAfterTime resp.retryAfterHeader
    let w1 := setThrottledFlag key true (recordSignal key ra w0)
    retryLoop key fetches maxRetries ra resp w1

/-- `async waitForThrottle(request)` (`src/rateLimitMiddleware.ts:337-362`):
the pre-send hook's delay logic. Returns the final world and the worlds
observed while suspended. -/
def waitForThrottle (req : Request) (w : World) : World × Trace :=
  let key := getEndpointKey req
  let w0 := ensureState key w
  let st := lookupState key w0
  if st.isThrottled then
    let waitTime := st.lastRetryTime + st.retryAfter * 1000 - w0.now
    if waitTime > 0 then
      (setThrottledFlag key false (delay waitTime w0), [w0])
    else
      (setThrottledFlag key false w0, [])
  else (w0, [])

/-- One invocation of a middleware hook, with the transport oracle a
post-receive call will consult. -/
inductive Op where
  | pre (req : Request)
  | post (req : Request) (resp : Response) (fetches : Nat → FetchResult)

/-- Run one hook to completion from a world. -/
def applyOp (w : World) : Op → World × Trace
  | Op.pre req => waitForThrottle req w
  | Op.post req resp fetches =>
      let out := handleResponse req resp fetches w
      (out.2.1, out.2.2)

/-- Run a sequence of hook invocations, concatenating the suspension
traces and recording the world after each completed hook. -/
def run : List Op → World → World × Trace
  | [], w => (w, [])
  | o :: os, w =>
      let step := applyOp w o
      let rest := run os step.1
      (rest.1, step.2 ++ [step.1] ++ rest.2)

/-- The fresh manager: empty endpoint map, clock at epoch 0, nothing
waited, no fetches, empty ghost log. -/
def initialWorld : World :=
  { states := fun _ => none, now := 0, waited := 0, fetchCount := 0,
    sentOptions := [], sigLog := fun _ => none }

/-- The throttle-window invariant: a throttled endpoint's `retryAfter` and
`lastRetryTime` are exactly the ones recorded from the most recent
rate-limit signal for that endpoint (ghost `sigLog`). -/
def ThrottleInv (w : World) : Prop :=
  ∀ k st, w.states k = some st → st.isThrottled = true →
    w.sigLog k = some (st.retryAfter, st.lastRetryTime)

/-! ### Projection lemmas for the world-updating helpers -/

@[simp] lemma delay_states (ms : Int) (w : World) : (delay ms w).states = w.states := rfl
@[simp] lemma delay_now (ms : Int) (w : World) : (delay ms w).now = w.now + max ms 0 := rfl
@[simp] lemma delay_waited (ms : Int) (w : World) :
    (delay ms w).waited = w.waited + max ms 0 := rfl
@[simp] lemma delay_fetchCount (ms : Int) (w : World) :
    (delay ms w).fetchCount = w.fetchCount := rfl
@[simp] lemma delay_sentOptions (ms : Int) (w : World) :
    (delay ms w).sentOptions = w.sentOptions := rfl
@[simp] lemma delay_sigLog (ms : Int) (w : World) : (delay ms w).sigLog = w.sigLog := rfl

@[simp] lemma recordFetch_states (w : World) : (recordFetch w).states = w.states := rfl
@[simp] lemma recordFetch_now (w : World) : (recordFetch w).now = w.now := rfl
@[simp] lemma recordFetch_waited (w : World) : (recordFetch w).waited = w.waited := rfl
@[simp] lemma recordFetch_fetchCount (w : World) :
    (recordFetch w).fetchCount = w.fetchCount + 1 := rfl
@[simp] lemma recordFetch_sentOptions (w : World) :
    (recordFetch w).sentOptions = w.sentOptions ++ [[]] := rfl
@[simp] lemma recordFetch_sigLog (w : World) : (recordFetch w).sigLog = w.sigLog := rfl

@[simp] lemma setThrottledFlag_states (k : String) (b : Bool) (w : World) (q : String) :
    (setThrottledFlag k b w).states q =
      if q = k then (w.states q).map (fun st => { st with isThrottled := b })
      else w.states q := rfl
@[simp] lemma setThrottledFlag_now (k : String) (b : Bool) (w : World) :
    (setThrottledFlag k b w).now = w.now := rfl
@[simp] lemma setThrottledFlag_waited (k : String) (b : Bool) (w : World) :
    (setThrottledFlag k b w).waited = w.waited := rfl
@[simp] lemma setThrottledFlag_fetchCount (k : String) (b : Bool) (w : World) :
    (setThrottledFlag k b w).fetchCount = w.fetchCount := rfl
@[simp] lemma setThrottledFlag_sentOptions (k : String) (b : Bool) (w : World) :
    (setThrottledFlag k b w).sentOptions = w.sentOptions := rfl
@[simp] lemma setThrottledFlag_sigLog (k : String) (b : Bool) (w : World) :
    (setThrottledFlag k b w).sigLog = w.sigLog := rfl

@[simp] lemma recordSignal_states (k : String) (ra : Int) (w : World) (q : String) :
    (recordSignal k ra w).states q =
      if q = k then
        (w.states q).map (fun st => { st with retryAfter := ra, lastRetryTime := w.now })
      else w.states q := rfl
@[simp] lemma recordSignal_now (k : String) (ra : Int) (w : World) :
    (recordSignal k ra w).now = w.now := rfl
@[simp] lemma recordSignal_waited (k : String) (ra : Int) (w : World) :
    (recordSignal k ra w).waited = w.waited := rfl
@[simp] lemma recordSignal_fetchCount (k : String) (ra : Int) (w : World) :
    (recordSignal k ra w).fetchCount = w.fetchCount := rfl
@[simp] lemma recordSignal_sentOptions (k : String) (ra : Int) (w : World) :
    (recordSignal k ra w).sentOptions = w.sentOptions := rfl
@[simp] lemma recordSignal_sigLog (k : String) (ra : Int) (w : World) (q : String) :
    (recordSignal k ra w).sigLog q =
      if q = k then some (ra, w.now) else w.sigLog q := rfl

@[simp] lemma ensureState_now (k : String) (w : World) : (ensureState k w).now = w.now := by
  unfold ensureState; cases w.states k <;> rfl
@[simp] lemma ensureState_waited (k : String) (w : World) :
    (ensureState k w).waited = w.waited := by
  unfold ensureState; cases w.states k <;> rfl
@[simp] lemma ensureState_fetchCount (k : String) (w : World) :
    (ensureState k w).fetchCount = w.fetchCount := by
  unfold ensureState; cases w.states k <;> rfl
@[simp] lemma ensureState_sentOptions (k : String) (w : World) :
    (ensureState k w).sentOptions = w.sentOptions := by
  unfold ensureState; cases w.states k <;> rfl
@[simp] lemma ensureState_sigLog (k : String) (w : World) :
    (ensureState k w).sigLog = w.sigLog := by
  unfold ensureState; cases w.states k <;> rfl

lemma ensureState_states_self (k : String) (w : World) :
    (ensureState k w).states k = some ((w.states k).getD defaultEndpointState) := by
  unfold ensureState setState
  cases h : w.states k <;> simp [h]

lemma ensureState_states_other (k q : String) (w : World) (hq : q ≠ k) :
    (ensureState k w).states q = w.states q := by
  unfold ensureState setState
  cases h : w.states k <;> simp [hq]

/-- Definitional unfolding of one iteration of the retry loop. -/
lemma retryLoop_succ (key : String) (fetches : Nat → FetchResult) (fuel : Nat)
    (ra : Int) (lastR : Response) (w : World) :
    retryLoop key fetches (fuel + 1) ra lastR w =
      (match fetches w.fetchCount with
       | FetchResult.err e =>
           (Except.error e, setThrottledFlag key false (recordFetch (delay (ra * 1000) w)), [w])
       | FetchResult.ok r =>
           if r.status ≠ 429 then
             (Except.ok r, setThrottledFlag key false (recordFetch (delay (ra * 1000) w)), [w])
           else if isRetryable r.body = false then
             (Except.ok r, setThrottledFlag key false (recordFetch (delay (ra * 1000) w)), [w])
           else
             let ra2 := getRetryAfterTime r.retryAfterHeader
             let out := retryLoop key fetches fuel ra2 r
               (recordSignal key ra2 (recordFetch (delay (ra * 1000) w)))
             (out.1, out.2.1, w :: out.2.2)) := rfl

/-- Definitional unfolding of the exhausted retry loop. -/
lemma retryLoop_zero (key : String) (fetches : Nat → FetchResult)
    (ra : Int) (lastR : Response) (w : World) :
    retryLoop key fetches 0 ra lastR w =
      (Except.ok lastR, setThrottledFlag key false w, []) := rfl

/-! ### Concrete fixtures used by the witness theorems -/

/-- A concrete `GET https://host/a` request. -/
def reqGetA : Request :=
  { method := "GET", url := { pathname := "/a", search := "" }, body := "" }

/-- A 429 response with `Retry-After: 2` and body `{"retryable": true}`. -/
def resp429Retryable : Response :=
  { status := 429, retryAfterHeader := some "2",
    body := some (Json.obj [("retryable", Json.bool true)]) }

/-- A 429 response with body `{"retryable": false}`. -/
def resp429NotRetryable : Response :=
  { status := 429, retryAfterHeader := some "2",
    body := some (Json.obj [("retryable", Json.bool false)]) }

/-- A plain 200 response. -/
def resp200 : Response := { status := 200, retryAfterHeader := none, body := none }

/-- A 429 response with no `Retry-After` header and no body marker. -/
def resp429Bare : Response := { status := 429, retryAfterHeader := none, body := none }

/-- A transport oracle that always resolves with the 200 response. -/
def fetchAlways200 : Nat → FetchResult := fun _ => FetchResult.ok resp200

/-- A transport oracle that always resolves with the retryable 429. -/
def fetchAlways429 : Nat → FetchResult := fun _ => FetchResult.ok resp429Retryable

/-- A transport oracle that always rejects. -/
def fetchAlwaysErr : Nat → FetchResult := fun _ => FetchResult.err "network down"

/-! ### Claims -/

/-- Strict-equality test unfolded: `isBoolFalse` holds exactly of the JS
literal `false`. -/
lemma Json.isBoolFalse_iff (v : Json) : v.isBoolFalse = true ↔ v = Json.bool false := by
  cases v with
  | bool b => cases b <;> simp [Json.isBoolFalse]
  | null => simp [Json.isBoolFalse]
  | num n => simp [Json.isBoolFalse]
  | str s => simp [Json.isBoolFalse]
  | arr es => simp [Json.isBoolFalse]
  | obj fs => simp [Json.isBoolFalse]

/-- C4: `isRetryable` returns `false` iff the body parses as an object
whose `retryable` field is present and is exactly the JSON literal
`false`; in every other case (field `true`, field absent, field of another
type, body not an object, body unparseable) it returns `true`. -/
theorem c4_isRetryable_false_iff (body : Option Json) :
    isRetryable body = false ↔
      ∃ fields, body = some (Json.obj fields) ∧
        fields.lookup "retryable" = some (Json.bool false) := by
  cases body with
  | none => simp [isRetryable]
  | some j =>
    cases j with
    | obj fields =>
      simp only [isRetryable]
      cases hl : fields.lookup "retryable" with
      | none => simp [hl]
      | some v =>
        rcases hb : v.isBoolFalse with _ | _
        · have hv : ¬ v = Json.bool false := by
            intro h; subst h; simp [Json.isBoolFalse] at hb
          simp [hl, hb, hv]
        · have hv : v = Json.bool false := (Json.isBoolFalse_iff v).mp hb
          subst hv
          simp [hl, hb]
    | null => simp [isRetryable]
    | bool b => simp [isRetryable]
    | num n => simp [isRetryable]
    | str s => simp [isRetryable]
    | arr es => simp [isRetryable]

/-- C5: a 429 marked not retryable is returned unchanged at once — the
whole world (state map, clock, wait counter, fetch counter) is untouched
and no suspension happens. -/
theorem c5_nonretryable_429_passthrough (req : Request) (resp : Response)
    (fetches : Nat → FetchResult) (w : World)
    (h429 : resp.status = 429) (hnr : isRetryable resp.body = false) :
    handleResponse req resp fetches w = (Except.ok resp, w, []) := by
  simp [handleResponse, h429, hnr]

/-- C5 witness: the fixture `{"retryable": false}` 429 passes through the
hook unchanged. -/
theorem c5_witness :
    handleResponse reqGetA resp429NotRetryable fetchAlways200 initialWorld =
      (Except.ok resp429NotRetryable, initialWorld, []) :=
  c5_nonretryable_429_passthrough reqGetA resp429NotRetryable fetchAlways200 initialWorld
    rfl rfl

/-- A successful `parseInt` needs at least one digit, so the parsed string
is nonempty and the JS truthiness test cannot have skipped the parse. -/
lemma jsParseInt10_ne_empty {s : String} {n : Int} (h : jsParseInt10 s = some n) :
    s.isEmpty = false := by
  cases he : s.isEmpty with
  | false => rfl
  | true =>
      have hs : s = "" := (String.isEmpty_iff s).mp he
      subst hs
      simp [jsParseInt10] at h

/-- C7: the retry-after duration is the `Retry-After` header under JS
`parseInt(·, 10)` when that parse yields an integer, and exactly 1 in
every other case (header absent or unparseable); consequently a retryable
429 with no `Retry-After` header makes the hook sleep exactly 1000 ms
before its first retried send. -/
theorem c7_parseRetryAfter :
    (∀ (s : String) (n : Int), jsParseInt10 s = some n →
      getRetryAfterTime (some s) = n) ∧
    getRetryAfterTime none = 1 ∧
    (∀ s : String, jsParseInt10 s = none → getRetryAfterTime (some s) = 1) ∧
    (∀ (req : Request) (resp : Response) (fetches : Nat → FetchResult) (w : World)
       (r : Response), resp.status = 429 → isRetryable resp.body = true →
       resp.retryAfterHeader = none → fetches w.fetchCount = FetchResult.ok r →
       r.status ≠ 429 →
       (handleResponse req resp fetches w).2.1.waited = w.waited + 1000) := by
  refine ⟨?_, rfl, ?_, ?_⟩
  · intro s n h
    have he := jsParseInt10_ne_empty h
    simp [getRetryAfterTime, he, h]
  · intro s h
    cases he : s.isEmpty <;> simp [getRetryAfterTime, he, h]
  · intro req resp fetches w r h429 hret hdr hf hr
    rw [handleResponse.eq_def]
    simp only [h429, hdr, hret]
    norm_num
    rw [show maxRetries = 2 + 1 from rfl, retryLoop_succ]
    simp only [delay_fetchCount, setThrottledFlag_fetchCount, recordSignal_fetchCount,
      ensureState_fetchCount, hf]
    simp [hr, getRetryAfterTime]

/-- C7 witness: the fixture bare 429 (no header) retried into a 200 from a
fresh world sleeps exactly 1000 ms; `"2"` parses to 2 and `"abc"` falls
back to 1. -/
theorem c7_witness :
    getRetryAfterTime (some "2") = 2 ∧
    getRetryAfterTime (some "abc") = 1 ∧
    (handleResponse reqGetA resp429Bare fetchAlways200 initialWorld).2.1.waited =
      initialWorld.waited + 1000 :=
  ⟨c7_parseRetryAfter.1 "2" 2 (by decide),
   c7_parseRetryAfter.2.2.1 "abc" (by decide),
   c7_parseRetryAfter.2.2.2 reqGetA resp429Bare fetchAlways200 initialWorld resp200
     rfl rfl rfl rfl (by decide)⟩

/-- C8 counterexample: a `Retry-After` header of `"-5"` is parsed by
`parseInt` to the negative value `-5` and returned as-is, so the parsed
retry-after duration can be negative. -/
theorem c8_counterexample :
    getRetryAfterTime (some "-5") = -5 ∧ getRetryAfterTime (some "-5") < 0 := by
  constructor <;> decide

/-- C8 (amended): a literal header value of `"0"` is honored as 0,
unaltered; and the returned value is negative only when the header itself
parses (via JS `parseInt`) to a negative integer, which is then returned
unaltered — the fallback cases always yield the positive constant 1. -/
theorem c8_retryAfter_zero_honored_negative_only_from_header :
    getRetryAfterTime (some "0") = 0 ∧
    (∀ h : Option String, getRetryAfterTime h < 0 →
      ∃ (s : String) (n : Int), h = some s ∧ jsParseInt10 s = some n ∧ n < 0 ∧
        getRetryAfterTime h = n) := by
  refine ⟨by decide, ?_⟩
  intro h hneg
  cases h with
  | none => simp [getRetryAfterTime] at hneg
  | some s =>
    cases he : s.isEmpty with
    | true => simp [getRetryAfterTime, he] at hneg
    | false =>
      cases hp : jsParseInt10 s with
      | none => simp [getRetryAfterTime, he, hp] at hneg
      | some n =>
        have hv : getRetryAfterTime (some s) = n := by
          simp [getRetryAfterTime, he, hp]
        exact ⟨s, n, rfl, hp, by rw [hv] at hneg; exact hneg, hv⟩

/-- C8 witness: `"0"` is returned as 0, and the amended negative-header
characterisation applied at the concrete header `"-5"`. -/
theorem c8_witness :
    getRetryAfterTime (some "0") = 0 ∧
    (∃ (s : String) (n : Int), (some "-5" : Option String) = some s ∧
      jsParseInt10 s = some n ∧ n < 0 ∧ getRetryAfterTime (some "-5") = n) :=
  ⟨c8_retryAfter_zero_honored_negative_only_from_header.1,
   c8_retryAfter_zero_honored_negative_only_from_header.2 (some "-5") (by decide)⟩

/-- Splitting at a separator absent from both prefixes is injective. -/
lemma append_colon_inj {m1 p1 m2 p2 : List Char}
    (h1 : ':' ∉ m1) (h2 : ':' ∉ m2)
    (h : m1 ++ ':' :: p1 = m2 ++ ':' :: p2) : m1 = m2 ∧ p1 = p2 := by
  induction m1 generalizing m2 with
  | nil =>
    cases m2 with
    | nil => simpa using h
    | cons d ds =>
      simp only [List.nil_append, List.cons_append, List.cons.injEq] at h
      exact absurd (h.1 ▸ List.mem_cons_self d ds) (fun hm => h2 (h.1 ▸ hm))
  | cons c cs ih =>
    cases m2 with
    | nil =>
      simp only [List.cons_append, List.nil_append, List.cons.injEq] at h
      exact absurd (List.mem_cons_self c cs) (h.1 ▸ h1)
    | cons d ds =>
      simp only [List.cons_append, List.cons.injEq] at h
      have h1' : ':' ∉ cs := fun hm => h1 (List.mem_cons_of_mem _ hm)
      have h2' : ':' ∉ ds := fun hm => h2 (List.mem_cons_of_mem _ hm)
      obtain ⟨he, hp⟩ := ih h1' h2' h.2
      exact ⟨by rw [h.1, he], hp⟩

/-- The endpoint entry visible right after the lazy-init block. -/
lemma lookupState_ensureState (k : String) (w : World) :
    lookupState k (ensureState k w) = (w.states k).getD defaultEndpointState := by
  simp [lookupState, ensureState_states_self]

/-- C3: the endpoint key is exactly the (method, path) pair — for requests
whose method contains no `':'` (HTTP method tokens never do), two keys
coincide iff method and path both coincide, independently of query string
and body; and the pre-send delay depends only on the clock and on the
state stored under the request's own key, so a throttled `GET /a` cannot
delay `POST /a` or `GET /b`. -/
theorem c3_endpoint_identity :
    (∀ r1 r2 : Request, (':' ∉ r1.method.data) → (':' ∉ r2.method.data) →
      (getEndpointKey r1 = getEndpointKey r2 ↔
        r1.method = r2.method ∧ r1.url.pathname = r2.url.pathname)) ∧
    (∀ (req : Request) (w1 w2 : World), w1.now = w2.now →
      w1.states (getEndpointKey req) = w2.states (getEndpointKey req) →
      (waitForThrottle req w1).1.waited - w1.waited =
        (waitForThrottle req w2).1.waited - w2.waited) := by
  constructor
  · intro r1 r2 h1 h2
    constructor
    · intro h
      have hd := congrArg String.data h
      have hcolon : (":" : String).data = [':'] := rfl
      simp only [getEndpointKey, String.data_append, hcolon, List.append_assoc,
        List.singleton_append] at hd
      obtain ⟨hm, hp⟩ := append_colon_inj h1 h2 hd
      exact ⟨String.ext_iff.mpr hm, String.ext_iff.mpr hp⟩
    · rintro ⟨hm, hp⟩
      simp [getEndpointKey, hm, hp]
  · intro req w1 w2 hnow hst
    simp only [waitForThrottle, lookupState_ensureState, hst, hnow, ensureState_now,
      ensureState_waited, setThrottledFlag_waited, delay_waited]
    split_ifs <;>
      simp only [setThrottledFlag_waited, delay_waited, ensureState_waited] <;> omega

/-- `GET /a?x=1` with a different body: same endpoint key as `reqGetA`. -/
def reqGetAQuery : Request :=
  { method := "GET", url := { pathname := "/a", search := "?x=1" }, body := "b" }

/-- `POST /a`. -/
def reqPostA : Request :=
  { method := "POST", url := { pathname := "/a", search := "" }, body := "" }

/-- A world in which only `GET /a` is throttled (window of 5 s opened at
time 0). -/
def wThrottledGetA : World :=
  { states := fun q =>
      if q = "GET:/a" then
        some { isThrottled := true, retryAfter := 5, queue := [], lastRetryTime := 0,
               processing := false }
      else none,
    now := 0, waited := 0, fetchCount := 0, sentOptions := [],
    sigLog := fun q => if q = "GET:/a" then some (5, 0) else none }

/-- C3 witness: `GET /a` and `GET /a?x=1` share a key; and a pre-send call
for `POST /a` in a world where only `GET /a` is throttled adds the same
(zero) delay as in the fresh world. -/
theorem c3_witness :
    (getEndpointKey reqGetA = getEndpointKey reqGetAQuery ↔
      reqGetA.method = reqGetAQuery.method ∧
        reqGetA.url.pathname = reqGetAQuery.url.pathname) ∧
    (waitForThrottle reqPostA wThrottledGetA).1.waited - wThrottledGetA.waited =
      (waitForThrottle reqPostA initialWorld).1.waited - initialWorld.waited :=
  ⟨c3_endpoint_identity.1 reqGetA reqGetAQuery (by decide) (by decide),
   c3_endpoint_identity.2 reqPostA wThrottledGetA initialWorld rfl rfl⟩

/-- C9: the pre-send hook adds zero delay (and advances no time) when the
endpoint has no state, an unthrottled state, or a throttled state whose
window has already elapsed; after it returns the endpoint's flag is always
false, so two immediate successive calls after a naturally elapsed window
both add zero delay. -/
theorem c9_presend_zero_delay :
    (∀ (req : Request) (w : World),
      (w.states (getEndpointKey req) = none ∨
        ∃ st, w.states (getEndpointKey req) = some st ∧ st.isThrottled = false) →
      (waitForThrottle req w).1.waited = w.waited ∧
        (waitForThrottle req w).1.now = w.now) ∧
    (∀ (req : Request) (w : World) (st : EndpointState),
      w.states (getEndpointKey req) = some st → st.isThrottled = true →
      st.lastRetryTime + st.retryAfter * 1000 - w.now ≤ 0 →
      (waitForThrottle req w).1.waited = w.waited ∧
        (waitForThrottle req w).1.now = w.now) ∧
    (∀ (req : Request) (w : World),
      ((waitForThrottle req w).1.states (getEndpointKey req)).map
        (fun st => st.isThrottled) = some false) ∧
    (∀ (req : Request) (w : World) (st : EndpointState),
      w.states (getEndpointKey req) = some st → st.isThrottled = true →
      st.lastRetryTime + st.retryAfter * 1000 - w.now ≤ 0 →
      (waitForThrottle req (waitForThrottle req w).1).1.waited = w.waited) := by
  have part1 : ∀ (req : Request) (w : World),
      (w.states (getEndpointKey req) = none ∨
        ∃ st, w.states (getEndpointKey req) = some st ∧ st.isThrottled = false) →
      (waitForThrottle req w).1.waited = w.waited ∧
        (waitForThrottle req w).1.now = w.now := by
    intro req w hcase
    rcases hcase with hnone | ⟨st, hsome, hfalse⟩
    · simp [waitForThrottle, lookupState_ensureState, hnone, defaultEndpointState]
    · simp [waitForThrottle, lookupState_ensureState, hsome, hfalse]
  have part2 : ∀ (req : Request) (w : World) (st : EndpointState),
      w.states (getEndpointKey req) = some st → st.isThrottled = true →
      st.lastRetryTime + st.retryAfter * 1000 - w.now ≤ 0 →
      (waitForThrottle req w).1.waited = w.waited ∧
        (waitForThrottle req w).1.now = w.now := by
    intro req w st hsome htrue helap
    simp only [waitForThrottle, lookupState_ensureState, hsome, Option.getD_some, htrue,
      ensureState_now, if_true]
    rw [if_neg (by omega)]
    simp
  have part3 : ∀ (req : Request) (w : World),
      ((waitForThrottle req w).1.states (getEndpointKey req)).map
        (fun st => st.isThrottled) = some false := by
    intro req w
    rcases h : w.states (getEndpointKey req) with _ | st
    · simp [waitForThrottle, lookupState_ensureState, h, defaultEndpointState,
        ensureState_states_self]
    · cases hth : st.isThrottled
      · simp [waitForThrottle, lookupState_ensureState, h, hth, ensureState_states_self]
      · by_cases hw : st.lastRetryTime + st.retryAfter * 1000 - w.now > 0 <;>
          simp [waitForThrottle, lookupState_ensureState, h, hth, hw,
            ensureState_states_self]
  refine ⟨part1, part2, part3, ?_⟩
  intro req w st hsome htrue helap
  have hfirst := part2 req w st hsome htrue helap
  have hflag := part3 req w
  obtain ⟨st', hsome', hfalse'⟩ := Option.map_eq_some'.mp hflag
  have hsecond := part1 req (waitForThrottle req w).1 (Or.inr ⟨st', hsome', hfalse'⟩)
  rw [hsecond.1, hfirst.1]

/-- A world where `GET /a` is throttled but its 1 s window opened at time 0
has elapsed by the current clock 5000. -/
def wElapsedGetA : World :=
  { states := fun q =>
      if q = "GET:/a" then
        some { isThrottled := true, retryAfter := 1, queue := [], lastRetryTime := 0,
               processing := false }
      else none,
    now := 5000, waited := 0, fetchCount := 0, sentOptions := [],
    sigLog := fun q => if q = "GET:/a" then some (1, 0) else none }

/-- C9 witness: fresh world (no signal) adds no delay; the elapsed-window
world adds no delay, ends unthrottled, and a second immediate call still
adds no delay. -/
theorem c9_witness :
    ((waitForThrottle reqGetA initialWorld).1.waited = initialWorld.waited ∧
      (waitForThrottle reqGetA initialWorld).1.now = initialWorld.now) ∧
    ((waitForThrottle reqGetA wElapsedGetA).1.waited = wElapsedGetA.waited ∧
      (waitForThrottle reqGetA wElapsedGetA).1.now = wElapsedGetA.now) ∧
    ((waitForThrottle reqGetA wElapsedGetA).1.states (getEndpointKey reqGetA)).map
      (fun st => st.isThrottled) = some false ∧
    (waitForThrottle reqGetA (waitForThrottle reqGetA wElapsedGetA).1).1.waited =
      wElapsedGetA.waited :=
  ⟨c9_presend_zero_delay.1 reqGetA initialWorld (Or.inl rfl),
   c9_presend_zero_delay.2.1 reqGetA wElapsedGetA
     { isThrottled := true, retryAfter := 1, queue := [], lastRetryTime := 0,
       processing := false } rfl rfl (by decide),
   c9_presend_zero_delay.2.2.1 reqGetA wElapsedGetA,
   c9_presend_zero_delay.2.2.2 reqGetA wElapsedGetA
     { isThrottled := true, retryAfter := 1, queue := [], lastRetryTime := 0,
       processing := false } rfl rfl (by decide)⟩

/-- C1: whenever an iteration of the retry loop gets a non-429 response
from the transport, the loop clears the endpoint's throttled flag and
returns that response as the final result; concretely, a retryable 429
with `Retry-After: 2` whose single retried send yields a 200 makes the
hook sleep exactly 2000 ms, issue exactly one retried send with the
unmodified-options literal `{}`, end unthrottled, and return the 200. -/
theorem c1_retry_non429_returned :
    (∀ (key : String) (fetches : Nat → FetchResult) (fuel : Nat) (ra : Int)
       (lastR r : Response) (w : World),
       fetches w.fetchCount = FetchResult.ok r → r.status ≠ 429 →
       (retryLoop key fetches (fuel + 1) ra lastR w).1 = Except.ok r ∧
       (retryLoop key fetches (fuel + 1) ra lastR w).2.1.states key =
         (w.states key).map (fun st => { st with isThrottled := false })) ∧
    (∀ (req : Request) (resp : Response) (fetches : Nat → FetchResult) (w : World)
       (r : Response), resp.status = 429 → isRetryable resp.body = true →
       resp.retryAfterHeader = some "2" → fetches w.fetchCount = FetchResult.ok r →
       r.status = 200 →
       (handleResponse req resp fetches w).1 = Except.ok r ∧
       (handleResponse req resp fetches w).2.1.waited = w.waited + 2000 ∧
       (handleResponse req resp fetches w).2.1.fetchCount = w.fetchCount + 1 ∧
       (handleResponse req resp fetches w).2.1.sentOptions = w.sentOptions ++ [[]] ∧
       ((handleResponse req resp fetches w).2.1.states (getEndpointKey req)).map
         (fun st => st.isThrottled) = some false) := by
  constructor
  · intro key fetches fuel ra lastR r w hf hr
    rw [retryLoop_succ, hf]
    simp [hr]
  · intro req resp fetches w r h429 hret hdr hf h200
    have hr : r.status ≠ 429 := by rw [h200]; decide
    rw [handleResponse.eq_def]
    simp only [h429, hdr, hret]
    norm_num
    rw [show getRetryAfterTime (some "2") = 2 from rfl,
      show maxRetries = 2 + 1 from rfl, retryLoop_succ]
    simp only [delay_fetchCount, setThrottledFlag_fetchCount, recordSignal_fetchCount,
      ensureState_fetchCount, hf]
    simp [hr, ensureState_states_self]

/-- C1 witness: the fixture scenario — retryable 429 with `Retry-After: 2`
retried once into a 200 from the fresh world. -/
theorem c1_witness :
    ((retryLoop "GET:/a" fetchAlways200 (0 + 1) 2 resp429Retryable initialWorld).1 =
        Except.ok resp200 ∧
      (retryLoop "GET:/a" fetchAlways200 (0 + 1) 2 resp429Retryable initialWorld).2.1.states
          "GET:/a" =
        (initialWorld.states "GET:/a").map (fun st => { st with isThrottled := false })) ∧
    ((handleResponse reqGetA resp429Retryable fetchAlways200 initialWorld).1 =
        Except.ok resp200 ∧
      (handleResponse reqGetA resp429Retryable fetchAlways200 initialWorld).2.1.waited =
        initialWorld.waited + 2000 ∧
      (handleResponse reqGetA resp429Retryable fetchAlways200 initialWorld).2.1.fetchCount =
        initialWorld.fetchCount + 1 ∧
      (handleResponse reqGetA resp429Retryable fetchAlways200 initialWorld).2.1.sentOptions =
        initialWorld.sentOptions ++ [[]] ∧
      ((handleResponse reqGetA resp429Retryable fetchAlways200
            initialWorld).2.1.states (getEndpointKey reqGetA)).map
          (fun st => st.isThrottled) = some false) :=
  ⟨c1_retry_non429_returned.1 "GET:/a" fetchAlways200 0 2 resp429Retryable resp200
     initialWorld rfl (by decide),
   c1_retry_non429_returned.2 reqGetA resp429Retryable fetchAlways200 initialWorld resp200
     rfl rfl rfl rfl rfl⟩

/-- C6: if the retried fetch of any loop iteration rejects, the loop
clears the endpoint's throttled flag, performs no further sends (exactly
the one that failed), and propagates that error; lifted to the hook for a
failure on the first iteration. -/
theorem c6_transport_failure_propagates :
    (∀ (key : String) (fetches : Nat → FetchResult) (fuel : Nat) (ra : Int)
       (lastR : Response) (w : World) (e : String),
       fetches w.fetchCount = FetchResult.err e →
       (retryLoop key fetches (fuel + 1) ra lastR w).1 = Except.error e ∧
       (retryLoop key fetches (fuel + 1) ra lastR w).2.1.fetchCount = w.fetchCount + 1 ∧
       (retryLoop key fetches (fuel + 1) ra lastR w).2.1.states key =
         (w.states key).map (fun st => { st with isThrottled := false })) ∧
    (∀ (req : Request) (resp : Response) (fetches : Nat → FetchResult) (w : World)
       (e : String), resp.status = 429 → isRetryable resp.body = true →
       fetches w.fetchCount = FetchResult.err e →
       (handleResponse req resp fetches w).1 = Except.error e ∧
       (handleResponse req resp fetches w).2.1.fetchCount = w.fetchCount + 1 ∧
       ((handleResponse req resp fetches w).2.1.states (getEndpointKey req)).map
         (fun st => st.isThrottled) = some false) := by
  constructor
  · intro key fetches fuel ra lastR w e hf
    rw [retryLoop_succ, hf]
    simp
  · intro req resp fetches w e h429 hret hf
    rw [handleResponse.eq_def]
    simp only [h429, hret]
    norm_num
    rw [show maxRetries = 2 + 1 from rfl, retryLoop_succ]
    simp only [delay_fetchCount, setThrottledFlag_fetchCount, recordSignal_fetchCount,
      ensureState_fetchCount, hf]
    simp [ensureState_states_self]

/-- C6 witness: a rejecting transport on the fixture retryable 429. -/
theorem c6_witness :
    ((retryLoop "GET:/a" fetchAlwaysErr (2 + 1) 2 resp429Retryable initialWorld).1 =
        Except.error "network down" ∧
      (retryLoop "GET:/a" fetchAlwaysErr (2 + 1) 2 resp429Retryable
          initialWorld).2.1.fetchCount = initialWorld.fetchCount + 1 ∧
      (retryLoop "GET:/a" fetchAlwaysErr (2 + 1) 2 resp429Retryable initialWorld).2.1.states
          "GET:/a" =
        (initialWorld.states "GET:/a").map (fun st => { st with isThrottled := false })) ∧
    ((handleResponse reqGetA resp429Retryable fetchAlwaysErr initialWorld).1 =
        Except.error "network down" ∧
      (handleResponse reqGetA resp429Retryable fetchAlwaysErr initialWorld).2.1.fetchCount =
        initialWorld.fetchCount + 1 ∧
      ((handleResponse reqGetA resp429Retryable fetchAlwaysErr
            initialWorld).2.1.states (getEndpointKey reqGetA)).map
          (fun st => st.isThrottled) = some false) :=
  ⟨c6_transport_failure_propagates.1 "GET:/a" fetchAlwaysErr 2 2 resp429Retryable
     initialWorld "network down" rfl,
   c6_transport_failure_propagates.2 reqGetA resp429Retryable fetchAlwaysErr initialWorld
     "network down" rfl rfl rfl⟩

/-- The retry loop issues at most `fuel` transport sends. -/
lemma retryLoop_fetchCount_le (key : String) (fetches : Nat → FetchResult) (fuel : Nat)
    (ra : Int) (lastR : Response) (w : World) :
    (retryLoop key fetches fuel ra lastR w).2.1.fetchCount ≤ w.fetchCount + fuel := by
  induction fuel generalizing ra lastR w with
  | zero => simp [retryLoop_zero]
  | succ n ih =>
    rw [retryLoop_succ]
    cases hf : fetches w.fetchCount with
    | err e => simp
    | ok r =>
      by_cases h1 : r.status ≠ 429
      · simp [h1]
      · by_cases h2 : isRetryable r.body = false
        · simp [h1, h2]
        · have hrec := ih (getRetryAfterTime r.retryAfterHeader) r
            (recordSignal key (getRetryAfterTime r.retryAfterHeader)
              (recordFetch (delay (ra * 1000) w)))
          simp only [recordSignal_fetchCount, recordFetch_fetchCount, delay_fetchCount]
            at hrec
          simp only [h1, h2, if_false, ite_false]
          simp
          omega

/-- The retry loop settles with an error only when some consulted fetch
rejected with that error. -/
lemma retryLoop_error_from_fetch (key : String) (fetches : Nat → FetchResult) (fuel : Nat)
    (ra : Int) (lastR : Response) (w : World) (e : String)
    (h : (retryLoop key fetches fuel ra lastR w).1 = Except.error e) :
    ∃ i, i < fuel ∧ fetches (w.fetchCount + i) = FetchResult.err e := by
  induction fuel generalizing ra lastR w with
  | zero => rw [retryLoop_zero] at h; simp at h
  | succ n ih =>
    rw [retryLoop_succ] at h
    cases hf : fetches w.fetchCount with
    | err e2 =>
      rw [hf] at h
      simp at h
      exact ⟨0, Nat.succ_pos n, by rw [Nat.add_zero, hf, h]⟩
    | ok r =>
      rw [hf] at h
      by_cases h1 : r.status ≠ 429
      · simp [h1] at h
      · by_cases h2 : isRetryable r.body = false
        · simp [h1, h2] at h
        · simp only [h1, h2, if_false, ite_false] at h
          simp at h
          obtain ⟨i, hi, hfi⟩ := ih _ _ _ h
          simp only [recordSignal_fetchCount, recordFetch_fetchCount, delay_fetchCount]
            at hfi
          refine ⟨i + 1, by omega, ?_⟩
          have hidx : w.fetchCount + (i + 1) = w.fetchCount + 1 + i := by omega
          rw [hidx]
          exact hfi

/-- When every consulted fetch yields a retryable 429, the loop consumes
all its attempts, returns the response of the last attempt as a normal
value, and ends with the endpoint unthrottled. -/
lemma retryLoop_all429 (key : String) (fetches : Nat → FetchResult) (fuel : Nat)
    (ra : Int) (lastR : Response) (w : World)
    (hall : ∀ i, i < fuel + 1 → ∃ r, fetches (w.fetchCount + i) = FetchResult.ok r ∧
      r.status = 429 ∧ isRetryable r.body = true) :
    ∃ r, fetches (w.fetchCount + fuel) = FetchResult.ok r ∧
      (retryLoop key fetches (fuel + 1) ra lastR w).1 = Except.ok r ∧
      (retryLoop key fetches (fuel + 1) ra lastR w).2.1.fetchCount =
        w.fetchCount + (fuel + 1) ∧
      ((retryLoop key fetches (fuel + 1) ra lastR w).2.1.states key).map
        (fun st => st.isThrottled) = (w.states key).map (fun _ => false) := by
  induction fuel generalizing ra lastR w with
  | zero =>
    obtain ⟨r0, hf0, hs0, hr0⟩ := hall 0 (by omega)
    rw [Nat.add_zero] at hf0
    refine ⟨r0, by simpa using hf0, ?_⟩
    rw [retryLoop_succ, hf0]
    simp [hs0, hr0, retryLoop_zero, Option.map_map, Function.comp]
    cases w.states key <;> simp
  | succ n ih =>
    obtain ⟨r0, hf0, hs0, hr0⟩ := hall 0 (by omega)
    rw [Nat.add_zero] at hf0
    have hall2 : ∀ i, i < n + 1 →
        ∃ r, fetches ((recordSignal key (getRetryAfterTime r0.retryAfterHeader)
            (recordFetch (delay (ra * 1000) w))).fetchCount + i) = FetchResult.ok r ∧
          r.status = 429 ∧ isRetryable r.body = true := by
      intro i hi
      obtain ⟨r, hfr, hsr, hrr⟩ := hall (i + 1) (by omega)
      refine ⟨r, ?_, hsr, hrr⟩
      simp only [recordSignal_fetchCount, recordFetch_fetchCount, delay_fetchCount]
      have hidx : w.fetchCount + 1 + i = w.fetchCount + (i + 1) := by omega
      rw [hidx]
      exact hfr
    obtain ⟨r2, hf2, hres, hcount, hstates⟩ := ih (getRetryAfterTime r0.retryAfterHeader)
      r0 (recordSignal key (getRetryAfterTime r0.retryAfterHeader)
        (recordFetch (delay (ra * 1000) w))) hall2
    simp only [recordSignal_fetchCount, recordFetch_fetchCount, delay_fetchCount] at hf2
    refine ⟨r2, ?_, ?_, ?_, ?_⟩
    · have hidx : w.fetchCount + (n + 1) = w.fetchCount + 1 + n := by omega
      rw [hidx]
      exact hf2
    · rw [retryLoop_succ, hf0]
      simpa [hs0, hr0] using hres
    · rw [retryLoop_succ, hf0]
      simp only [recordSignal_fetchCount, recordFetch_fetchCount, delay_fetchCount]
        at hcount
      simp [hs0, hr0]
      omega
    · rw [retryLoop_succ, hf0]
      simp only [recordSignal_states] at hstates
      simp [hs0, hr0]
      rw [hstates]
      simp [Option.map_map, Function.comp]

/-- C2: the post-receive hook issues at most 3 retried sends; it settles
with an error only when a transport send rejected (never for reaching the
retry ceiling); and when the original and all 3 retried responses are
retryable 429s, it performs exactly 3 sends, ends unthrottled, and
returns the last-received 429 as a normal value. -/
theorem c2_retry_ceiling :
    (∀ (req : Request) (resp : Response) (fetches : Nat → FetchResult) (w : World),
      (handleResponse req resp fetches w).2.1.fetchCount ≤ w.fetchCount + 3) ∧
    (∀ (req : Request) (resp : Response) (fetches : Nat → FetchResult) (w : World)
       (e : String), (handleResponse req resp fetches w).1 = Except.error e →
      ∃ i, i < 3 ∧ fetches (w.fetchCount + i) = FetchResult.err e) ∧
    (∀ (req : Request) (resp : Response) (fetches : Nat → FetchResult) (w : World),
      resp.status = 429 → isRetryable resp.body = true →
      (∀ i, i < 3 → ∃ r, fetches (w.fetchCount + i) = FetchResult.ok r ∧
        r.status = 429 ∧ isRetryable r.body = true) →
      ∃ r2, fetches (w.fetchCount + 2) = FetchResult.ok r2 ∧
        (handleResponse req resp fetches w).1 = Except.ok r2 ∧
        (handleResponse req resp fetches w).2.1.fetchCount = w.fetchCount + 3 ∧
        ((handleResponse req resp fetches w).2.1.states (getEndpointKey req)).map
          (fun st => st.isThrottled) = some false) := by
  refine ⟨?_, ?_, ?_⟩
  · intro req resp fetches w
    rw [handleResponse.eq_def]
    by_cases h429 : resp.status ≠ 429
    · simp [h429]
    · by_cases hret : isRetryable resp.body = false
      · simp [h429, hret]
      · simp only [h429, hret, if_false, ite_false]
        have hle := retryLoop_fetchCount_le (getEndpointKey req) fetches maxRetries
          (getRetryAfterTime resp.retryAfterHeader) resp
          (setThrottledFlag (getEndpointKey req) true
            (recordSignal (getEndpointKey req) (getRetryAfterTime resp.retryAfterHeader)
              (ensureState (getEndpointKey req) w)))
        simp only [setThrottledFlag_fetchCount, recordSignal_fetchCount,
          ensureState_fetchCount, maxRetries] at hle
        simpa using hle
  · intro req resp fetches w e herr
    rw [handleResponse.eq_def] at herr
    by_cases h429 : resp.status ≠ 429
    · simp [h429] at herr
    · by_cases hret : isRetryable resp.body = false
      · simp [h429, hret] at herr
      · simp only [h429, hret, if_false, ite_false] at herr
        simp at herr
        obtain ⟨i, hi, hfi⟩ := retryLoop_error_from_fetch _ _ _ _ _ _ _ herr
        simp only [setThrottledFlag_fetchCount, recordSignal_fetchCount,
          ensureState_fetchCount, maxRetries] at hi hfi
        exact ⟨i, hi, hfi⟩
  · intro req resp fetches w h429 hret hall
    rw [handleResponse.eq_def]
    simp only [h429, hret]
    norm_num
    have hall2 : ∀ i, i < 2 + 1 →
        ∃ r, fetches ((setThrottledFlag (getEndpointKey req) true
            (recordSignal (getEndpointKey req) (getRetryAfterTime resp.retryAfterHeader)
              (ensureState (getEndpointKey req) w))).fetchCount + i) = FetchResult.ok r ∧
          r.status = 429 ∧ isRetryable r.body = true := by
      intro i hi
      simpa using hall i (by omega)
    obtain ⟨r2, hf2, hres, hcount, hstates⟩ := retryLoop_all429 (getEndpointKey req)
      fetches 2 (getRetryAfterTime resp.retryAfterHeader) resp
      (setThrottledFlag (getEndpointKey req) true
        (recordSignal (getEndpointKey req) (getRetryAfterTime resp.retryAfterHeader)
          (ensureState (getEndpointKey req) w))) hall2
    simp only [setThrottledFlag_fetchCount, recordSignal_fetchCount,
      ensureState_fetchCount] at hf2 hcount
    refine ⟨r2, hf2, ?_⟩
    rw [show maxRetries = 2 + 1 from rfl]
    refine ⟨hres, by omega, ?_⟩
    have hrhs : Option.map (fun _ => false)
        ((setThrottledFlag (getEndpointKey req) true
          (recordSignal (getEndpointKey req) (getRetryAfterTime resp.retryAfterHeader)
            (ensureState (getEndpointKey req) w))).states (getEndpointKey req)) =
        some false := by
      simp [ensureState_states_self]
    rw [hrhs] at hstates
    obtain ⟨a, ha, hfa⟩ := Option.map_eq_some'.mp hstates
    exact ⟨a, ha, hfa⟩

/-- C2 witness: the fixture retryable 429 against a transport that always
answers with the same retryable 429 — exactly 3 sends, unthrottled end
state, last 429 returned; plus the error-provenance conjunct applied to
the always-rejecting transport. -/
theorem c2_witness :
    (handleResponse reqGetA resp429Retryable fetchAlways429 initialWorld).2.1.fetchCount ≤
      initialWorld.fetchCount + 3 ∧
    (∃ i, i < 3 ∧ fetchAlwaysErr (initialWorld.fetchCount + i) =
      FetchResult.err "network down") ∧
    (∃ r2, fetchAlways429 (initialWorld.fetchCount + 2) = FetchResult.ok r2 ∧
      (handleResponse reqGetA resp429Retryable fetchAlways429 initialWorld).1 =
        Except.ok r2 ∧
      (handleResponse reqGetA resp429Retryable fetchAlways429 initialWorld).2.1.fetchCount =
        initialWorld.fetchCount + 3 ∧
      ((handleResponse reqGetA resp429Retryable fetchAlways429
          initialWorld).2.1.states (getEndpointKey reqGetA)).map
        (fun st => st.isThrottled) = some false) :=
  ⟨c2_retry_ceiling.1 reqGetA resp429Retryable fetchAlways429 initialWorld,
   c2_retry_ceiling.2.1 reqGetA resp429Retryable fetchAlwaysErr initialWorld
     "network down" rfl,
   c2_retry_ceiling.2.2 reqGetA resp429Retryable fetchAlways429 initialWorld rfl rfl
     (fun _ _ => ⟨resp429Retryable, rfl, rfl, rfl⟩)⟩

/-- `delay` touches neither the state map nor the signal log. -/
lemma throttleInv_delay {w : World} (ms : Int) (h : ThrottleInv w) :
    ThrottleInv (delay ms w) := h

/-- `recordFetch` touches neither the state map nor the signal log. -/
lemma throttleInv_recordFetch {w : World} (h : ThrottleInv w) :
    ThrottleInv (recordFetch w) := h

/-- Clearing an endpoint's throttled flag preserves the invariant. -/
lemma throttleInv_setFalse {w : World} (k : String) (h : ThrottleInv w) :
    ThrottleInv (setThrottledFlag k false w) := by
  intro q st hq hthr
  rw [setThrottledFlag_sigLog]
  by_cases hqk : q = k
  · subst hqk
    rw [setThrottledFlag_states, if_pos rfl] at hq
    obtain ⟨st0, _, hmap⟩ := Option.map_eq_some'.mp hq
    rw [← hmap] at hthr
    simp at hthr
  · rw [setThrottledFlag_states, if_neg hqk] at hq
    exact h q st hq hthr

/-- Recording a fresh signal (loop case: flag untouched) re-establishes
the invariant at its key and preserves it elsewhere. -/
lemma throttleInv_recordSignal {w : World} (k : String) (ra : Int) (h : ThrottleInv w) :
    ThrottleInv (recordSignal k ra w) := by
  intro q st hq hthr
  rw [recordSignal_sigLog]
  by_cases hqk : q = k
  · subst hqk
    rw [recordSignal_states, if_pos rfl] at hq
    obtain ⟨st0, _, hmap⟩ := Option.map_eq_some'.mp hq
    rw [if_pos rfl, ← hmap]
  · rw [if_neg hqk]
    rw [recordSignal_states, if_neg hqk] at hq
    exact h q st hq hthr

/-- Recording a fresh signal and then setting the flag (the pre-loop
write) establishes the invariant at its key. -/
lemma throttleInv_setTrue_recordSignal {w : World} (k : String) (ra : Int)
    (h : ThrottleInv w) :
    ThrottleInv (setThrottledFlag k true (recordSignal k ra w)) := by
  intro q st hq hthr
  rw [setThrottledFlag_sigLog, recordSignal_sigLog]
  by_cases hqk : q = k
  · subst hqk
    rw [setThrottledFlag_states, if_pos rfl, recordSignal_states, if_pos rfl,
      Option.map_map] at hq
    obtain ⟨st0, _, hmap⟩ := Option.map_eq_some'.mp hq
    rw [if_pos rfl, ← hmap]
    simp [Function.comp]
  · rw [if_neg hqk]
    rw [setThrottledFlag_states, if_neg hqk, recordSignal_states, if_neg hqk] at hq
    exact h q st hq hthr

/-- Lazily creating a default (unthrottled) entry preserves the invariant. -/
lemma throttleInv_ensureState {w : World} (k : String) (h : ThrottleInv w) :
    ThrottleInv (ensureState k w) := by
  unfold ensureState
  cases hw : w.states k with
  | some st => exact h
  | none =>
    intro q st hq hthr
    unfold setState at hq ⊢
    simp only at hq ⊢
    by_cases hqk : q = k
    · subst hqk
      rw [if_pos rfl] at hq
      cases hq
      simp [defaultEndpointState] at hthr
    · rw [if_neg hqk] at hq
      exact h q st hq hthr

/-- Every world the retry loop ends in or suspends at satisfies the
throttle-window invariant, provided its entry world does. -/
lemma retryLoop_inv (key : String) (fetches : Nat → FetchResult) (fuel : Nat)
    (ra : Int) (lastR : Response) (w : World) (h : ThrottleInv w) :
    ThrottleInv (retryLoop key fetches fuel ra lastR w).2.1 ∧
    ∀ x ∈ (retryLoop key fetches fuel ra lastR w).2.2, ThrottleInv x := by
  induction fuel generalizing ra lastR w with
  | zero =>
    rw [retryLoop_zero]
    exact ⟨throttleInv_setFalse key h, by simp⟩
  | succ n ih =>
    rw [retryLoop_succ]
    have hmid : ThrottleInv (recordFetch (delay (ra * 1000) w)) :=
      throttleInv_recordFetch (throttleInv_delay _ h)
    cases hf : fetches w.fetchCount with
    | err e =>
      refine ⟨throttleInv_setFalse key hmid, ?_⟩
      intro x hx
      simp only [List.mem_singleton] at hx
      subst hx; exact h
    | ok r =>
      dsimp only
      split_ifs with h1 h2
      · refine ⟨throttleInv_setFalse key hmid, ?_⟩
        intro x hx
        simp only [List.mem_singleton] at hx
        subst hx; exact h
      · refine ⟨throttleInv_setFalse key hmid, ?_⟩
        intro x hx
        simp only [List.mem_singleton] at hx
        subst hx; exact h
      · have hrec := ih (getRetryAfterTime r.retryAfterHeader) r
          (recordSignal key (getRetryAfterTime r.retryAfterHeader)
            (recordFetch (delay (ra * 1000) w)))
          (throttleInv_recordSignal key _ hmid)
        refine ⟨hrec.1, ?_⟩
        intro x hx
        simp only [List.mem_cons] at hx
        rcases hx with hx | hx
        · subst hx; exact h
        · exact hrec.2 x hx

/-- Every world the post-receive hook ends in or suspends at satisfies the
invariant. -/
lemma handleResponse_inv (req : Request) (resp : Response)
    (fetches : Nat → FetchResult) (w : World) (h : ThrottleInv w) :
    ThrottleInv (handleResponse req resp fetches w).2.1 ∧
    ∀ x ∈ (handleResponse req resp fetches w).2.2, ThrottleInv x := by
  simp only [handleResponse]
  split_ifs with h429 hret
  · exact ⟨h, by simp⟩
  · exact ⟨h, by simp⟩
  · exact retryLoop_inv _ _ _ _ _ _
      (throttleInv_setTrue_recordSignal _ _ (throttleInv_ensureState _ h))

/-- Every world the pre-send hook ends in or suspends at satisfies the
invariant. -/
lemma waitForThrottle_inv (req : Request) (w : World) (h : ThrottleInv w) :
    ThrottleInv (waitForThrottle req w).1 ∧
    ∀ x ∈ (waitForThrottle req w).2, ThrottleInv x := by
  have hens : ThrottleInv (ensureState (getEndpointKey req) w) :=
    throttleInv_ensureState _ h
  simp only [waitForThrottle]
  split_ifs with hth hw
  · refine ⟨throttleInv_setFalse _ (throttleInv_delay _ hens), ?_⟩
    intro x hx
    simp only [List.mem_singleton] at hx
    subst hx; exact hens
  · exact ⟨throttleInv_setFalse _ hens, by simp⟩
  · exact ⟨hens, by simp⟩

/-- Every world a run of hook invocations ends in, completes an operation
in, or suspends at satisfies the invariant. -/
lemma run_inv (ops : List Op) (w : World) (h : ThrottleInv w) :
    ThrottleInv (run ops w).1 ∧ ∀ x ∈ (run ops w).2, ThrottleInv x := by
  induction ops generalizing w with
  | nil => exact ⟨h, by simp [run]⟩
  | cons o os ih =>
    have hstep : ThrottleInv (applyOp w o).1 ∧ ∀ x ∈ (applyOp w o).2, ThrottleInv x := by
      cases o with
      | pre req => exact waitForThrottle_inv req w h
      | post req resp fetches =>
        have := handleResponse_inv req resp fetches w h
        exact ⟨this.1, this.2⟩
    have hrest := ih (applyOp w o).1 hstep.1
    refine ⟨hrest.1, ?_⟩
    intro x hx
    simp only [run, List.mem_append, List.mem_singleton] at hx
    rcases hx with (hx | hx) | hx
    · exact hstep.2 x hx
    · subst hx; exact hstep.1
    · exact hrest.2 x hx

/-- C10: in every state reachable from the fresh manager by any sequence
of pre-send and post-receive operations — including every state observed
at a suspension point and after each completed hook — an endpoint whose
`isThrottled` flag is true has its `retryAfter` and `lastRetryTime` fields
equal to the pair recorded by the most recent rate-limit signal for that
endpoint (the ghost `sigLog`, written exactly at the signal writes). -/
theorem c10_throttled_reflects_last_signal (ops : List Op) :
    ThrottleInv (run ops initialWorld).1 ∧
    ∀ (i : Nat) (hi : i < ((run ops initialWorld).2).length),
      ThrottleInv (((run ops initialWorld).2).get ⟨i, hi⟩) := by
  have hinit : ThrottleInv initialWorld := by
    intro k st hk
    simp [initialWorld] at hk
  have hrun := run_inv ops initialWorld hinit
  exact ⟨hrun.1, fun i hi => hrun.2 _ (List.get_mem _ _ _)⟩

/-- A single post-receive invocation on the fixture retryable 429. -/
def opsPost429 : List Op := [Op.post reqGetA resp429Retryable fetchAlways429]

/-- C10 witness: in the first suspended world of that run, `GET:/a` is
throttled with `retryAfter = 2`, `lastRetryTime = 0`, and the invariant
instantiates to the recorded signal `(2, 0)`. -/
theorem c10_witness :
    (((run opsPost429 initialWorld).2).get ⟨0, by decide⟩).sigLog "GET:/a" =
      some (2, 0) :=
  (c10_throttled_reflects_last_signal opsPost429).2 0 (by decide) "GET:/a"
    { isThrottled := true, retryAfter := 2, queue := [], lastRetryTime := 0,
      processing := false } rfl rfl
